import Mathlib

/-!
Shallow embedding of the schema-metadata registry of `mongosql/bag.py`
(py-mongosql): the property-bag family (`ColumnsBag`, `DotColumnsBag`,
`PropertiesBag`, `HybridPropertiesBag`, `RelationshipsBag`,
`DotRelatedColumnsBag`, `CombinedBag`), the registry (`ModelPropertyBags`)
with its per-class cache (`for_model`), and alias derivation
(`aliased` / `DictOfAliasedColumns` / `_Hack_Lazy_Dict`).

Python dictionaries are modelled as association lists (insertion order
preserved, as in CPython); each dictionary object created by the code
carries a `tag : Nat` standing for its object identity, so that reference
sharing between a base registry and an alias-derived registry is
observable.  Fallible Python operations return `Except PyErr`.
-/

set_option autoImplicit false

/-- Column attribute of a model: its key plus the type classification used by
`_is_column_array` / `_is_column_json` and the `nullable` flag. -/
structure Column where
  name : String
  isArray : Bool
  isJson : Bool
  nullable : Bool
deriving DecidableEq

/-- Relationship attribute: `uselist` cardinality flag and the target model's
columns (what `_get_model_columns` returns for `relation.property.mapper.class_`). -/
structure Relationship where
  name : String
  uselist : Bool
  targetCols : List (String × Column)
deriving DecidableEq

/-- Python exceptions raised by the embedded code. -/
inductive PyErr where
  | keyError (k : String)
  | attributeError
  | valueError
  | typeError
deriving DecidableEq

/-- Attribute handles: what the various `__getitem__` implementations return.
`jsonPathOf h path` stands for `h[path].astext`; `adapted al h` stands for
`h.adapt_to_entity(alias)`; `attrOfAlias al nm` stands for
`getattr(aliased_class, nm)`. -/
inductive Handle where
  | pyNone
  | col (c : Column)
  | rel (r : Relationship)
  | jsonPathOf (base : Handle) (path : List String)
  | adapted (al : Nat) (h : Handle)
  | attrOfAlias (al : Nat) (nm : String)
deriving DecidableEq

deriving instance DecidableEq for Except

/-- Association-list lookup, the model of Python `dict[key]` access. -/
def alookup {κ α : Type} [DecidableEq κ] (k : κ) : List (κ × α) → Option α
  | [] => none
  | p :: rest => if p.1 = k then some p.2 else alookup k rest

/-- Split a character list at every dot, the model of `str.split('.')`. -/
def splitDots : List Char → List (List Char)
  | [] => [[]]
  | c :: rest =>
    let r := splitDots rest
    if c = '.' then [] :: r
    else
      match r with
      | [] => [[c]]
      | s :: ss => (c :: s) :: ss

/-- Model of `_dot_notation`: split a property name at dots, returning the
head segment and the remaining path. -/
def dotSplit (nm : String) : String × List String :=
  match (splitDots nm.data).map (fun l => String.mk l) with
  | [] => ("", [])
  | h :: t => (h, t)

/-- Model of `get_plain_column_name`: the head segment before the first dot. -/
def get_plain_column_name (nm : String) : String :=
  (dotSplit nm).1

/-- A query alias (`aliased(model)`): its identity plus the attribute names
the aliased class resolves — `getattr(aliased_class, name)` succeeds exactly
for the underlying model's attribute namespace and raises `AttributeError`
for every other name. -/
structure PyAlias where
  id : Nat
  attrs : Finset String
deriving DecidableEq

/-- The `_columns` attribute of a columns-like bag: either a plain dict (with
identity tag), a `DictOfAliasedColumns` wrapper around an inner dict, or the
`_Hack_Lazy_Dict` installed by `HybridPropertiesBag.aliased` (whose loader
closes over the aliased class). -/
inductive ColsDict where
  | plain (tag : Nat) (d : List (String × Column))
  | aliasedW (al : Nat) (inner : ColsDict)
  | lazyHack (al : PyAlias) (ks : Finset String)
deriving DecidableEq

/-- Dict item access `self._columns[key]`.  The aliased wrapper adapts the
result to the alias; the lazy hack dict calls `getattr(aliased_class, key)`
for any key whatsoever — that succeeds for every attribute the aliased class
has and raises `AttributeError` (never `KeyError`) for every other name. -/
def ColsDict.getItem : ColsDict → String → Except PyErr Handle
  | .plain _ d, k =>
    match alookup k d with
    | some c => .ok (.col c)
    | none => .error (.keyError k)
  | .aliasedW al inner, k => (ColsDict.getItem inner k).map (fun h => .adapted al h)
  | .lazyHack al _, k =>
    if k ∈ al.attrs then .ok (.attrOfAlias al.id k) else .error .attributeError

/-- Dict membership `key in self._columns`.  On the lazy hack dict, `in`
falls back to integer-indexed `__getitem__` probing and blows up inside
`getattr` with a `TypeError`. -/
def ColsDict.hasKey : ColsDict → String → Except PyErr Bool
  | .plain _ d, k => .ok (alookup k d).isSome
  | .aliasedW _ inner, k => ColsDict.hasKey inner k
  | .lazyHack _ _, _ => .error .typeError

/-- Dict enumeration `self._columns.items()`.  The lazy hack dict has no
`items` attribute (`__slots__` only holds the key set and the loader), so
enumeration raises `AttributeError`. -/
def ColsDict.items : ColsDict → Except PyErr (List (String × Handle))
  | .plain _ d => .ok (d.map (fun p => (p.1, Handle.col p.2)))
  | .aliasedW al inner =>
    (ColsDict.items inner).map (List.map (fun p => (p.1, Handle.adapted al p.2)))
  | .lazyHack _ _ => .error .attributeError

/-- Identity tags of the mutable dict objects reachable from a `_columns`
attribute.  The aliased wrapper is a fresh object but holds the inner dict
by reference; the lazy hack holds no dict at all. -/
def ColsDict.tags : ColsDict → Finset Nat
  | .plain t _ => {t}
  | .aliasedW _ inner => ColsDict.tags inner
  | .lazyHack _ _ => ∅

/-- Model of `ColumnsBag` (also the structure behind `DotColumnsBag`,
`HybridPropertiesBag`, `PrimaryKeyBag` and the columns part of
`DotRelatedColumnsBag`): the `_columns` dict plus the three frozensets
computed at `__init__` time. -/
structure ColumnsBag where
  columns : ColsDict
  column_names : Finset String
  array_column_names : Finset String
  json_column_names : Finset String
deriving DecidableEq

/-- Model of `ColumnsBag.__init__(columns)` over a freshly created dict with
identity `tag`. -/
def ColumnsBag.init (tag : Nat) (d : List (String × Column)) : ColumnsBag where
  columns := .plain tag d
  column_names := (d.map Prod.fst).toFinset
  array_column_names := ((d.filter (fun p => p.2.isArray)).map Prod.fst).toFinset
  json_column_names := ((d.filter (fun p => p.2.isJson)).map Prod.fst).toFinset

/-- Model of `ColumnsBag.is_column_array`. -/
def ColumnsBag.is_column_array (b : ColumnsBag) (nm : String) : Bool :=
  decide (get_plain_column_name nm ∈ b.array_column_names)

/-- Model of `ColumnsBag.is_column_json`. -/
def ColumnsBag.is_column_json (b : ColumnsBag) (nm : String) : Bool :=
  decide (get_plain_column_name nm ∈ b.json_column_names)

/-- Model of the `ColumnsBag.names` property. -/
def ColumnsBag.names (b : ColumnsBag) : Finset String :=
  b.column_names

/-- Model of `ColumnsBag.__contains__`. -/
def ColumnsBag.contains (b : ColumnsBag) (nm : String) : Except PyErr Bool :=
  b.columns.hasKey nm

/-- Model of `ColumnsBag.__getitem__`. -/
def ColumnsBag.getItem (b : ColumnsBag) (nm : String) : Except PyErr Handle :=
  b.columns.getItem nm

/-- Model of `ColumnsBag.__iter__` (dict items enumeration). -/
def ColumnsBag.items (b : ColumnsBag) : Except PyErr (List (String × Handle)) :=
  b.columns.items

/-- Model of `ColumnsBag.aliased`: `DictOfAliasedColumns.aliased_attrs` wraps
the `_columns` attribute of a shallow copy, keeping every frozenset. -/
def ColumnsBag.aliased (b : ColumnsBag) (al : PyAlias) : ColumnsBag :=
  { b with columns := .aliasedW al.id b.columns }

/-- Model of `HybridPropertiesBag.aliased`: the copy gets a `_Hack_Lazy_Dict`
over the original key set in place of its `_columns` dict. -/
def HybridPropertiesBag.aliased (b : ColumnsBag) (al : PyAlias) : ColumnsBag :=
  { b with columns := .lazyHack al b.column_names }

/-- Model of `DotColumnsBag.__contains__`: split at dots and test only the
head against the columns dict. -/
def DotColumnsBag.contains (b : ColumnsBag) (nm : String) : Except PyErr Bool :=
  b.columns.hasKey (dotSplit nm).1

/-- Model of `DotColumnsBag.__getitem__`: look the head up; a non-empty path
is allowed only on a JSON column, producing `col[path].astext`. -/
def DotColumnsBag.getItem (b : ColumnsBag) (nm : String) : Except PyErr Handle :=
  match b.columns.getItem (dotSplit nm).1 with
  | .error e => .error e
  | .ok c =>
    if (dotSplit nm).2 ≠ [] then
      if b.is_column_json (dotSplit nm).1 then .ok (.jsonPathOf c (dotSplit nm).2)
      else .error (.keyError nm)
    else .ok c

/-- Model of `DotColumnsBag.get_invalid_names`: the base unresolved set, then
names whose head is a JSON column are taken out again. -/
def DotColumnsBag.get_invalid_names (b : ColumnsBag) (names : List String) : Finset String :=
  let invalid := names.toFinset \ b.column_names
  invalid \ invalid.filter (fun nm => b.is_column_json nm = true)

/-- Model of `PropertiesBag`: only the frozenset of property names. -/
structure PropertiesBag where
  property_names : Finset String
deriving DecidableEq

/-- Model of `PropertiesBag.__init__`. -/
def PropertiesBag.init (props : List String) : PropertiesBag where
  property_names := props.toFinset

/-- Model of `PropertiesBag.__getitem__`: `None` for a known property,
`KeyError` otherwise. -/
def PropertiesBag.getItem (b : PropertiesBag) (nm : String) : Except PyErr Handle :=
  if nm ∈ b.property_names then .ok .pyNone else .error (.keyError nm)

/-- Model of `PropertiesBag.__iter__`: every property name paired with `None`
(frozenset iteration order is unspecified; enumerate in sorted order). -/
def PropertiesBag.items (b : PropertiesBag) : List (String × Handle) :=
  (b.property_names.sort (· ≤ ·)).map (fun nm => (nm, Handle.pyNone))

/-- The `_relations` attribute of a `RelationshipsBag`: plain dict or the
aliased wrapper. -/
inductive RelsDict where
  | plain (tag : Nat) (d : List (String × Relationship))
  | aliasedW (al : Nat) (inner : RelsDict)
deriving DecidableEq

/-- Dict item access on `_relations`. -/
def RelsDict.getItem : RelsDict → String → Except PyErr Handle
  | .plain _ d, k =>
    match alookup k d with
    | some r => .ok (.rel r)
    | none => .error (.keyError k)
  | .aliasedW al inner, k => (RelsDict.getItem inner k).map (fun h => .adapted al h)

/-- Dict enumeration `self._relations.items()`. -/
def RelsDict.items : RelsDict → Except PyErr (List (String × Handle))
  | .plain _ d => .ok (d.map (fun p => (p.1, Handle.rel p.2)))
  | .aliasedW al inner =>
    (RelsDict.items inner).map (List.map (fun p => (p.1, Handle.adapted al p.2)))

/-- Identity tags of the mutable dicts reachable from `_relations`. -/
def RelsDict.tags : RelsDict → Finset Nat
  | .plain t _ => {t}
  | .aliasedW _ inner => RelsDict.tags inner

/-- Model of `RelationshipsBag`. -/
structure RelationshipsBag where
  relations : RelsDict
  rel_names : Finset String
  array_rel_names : Finset String
deriving DecidableEq

/-- Model of `RelationshipsBag.__init__`. -/
def RelationshipsBag.init (tag : Nat) (d : List (String × Relationship)) : RelationshipsBag where
  relations := .plain tag d
  rel_names := (d.map Prod.fst).toFinset
  array_rel_names := ((d.filter (fun p => p.2.uselist)).map Prod.fst).toFinset

/-- Model of `RelationshipsBag.aliased`. -/
def RelationshipsBag.aliased (b : RelationshipsBag) (al : PyAlias) : RelationshipsBag :=
  { b with relations := .aliasedW al.id b.relations }

/-- Model of `RelationshipsBag.is_relationship_array`. -/
def RelationshipsBag.is_relationship_array (b : RelationshipsBag) (nm : String) : Bool :=
  decide (nm ∈ b.array_rel_names)

/-- Model of `RelationshipsBag.__getitem__`. -/
def RelationshipsBag.getItem (b : RelationshipsBag) (nm : String) : Except PyErr Handle :=
  b.relations.getItem nm

/-- Model of `RelationshipsBag.__iter__`. -/
def RelationshipsBag.items (b : RelationshipsBag) : Except PyErr (List (String × Handle)) :=
  b.relations.items

/-- The related-columns dict built by `DotRelatedColumnsBag.__init__`: one
entry `'rel.col'` per relationship and per column of its target model. -/
def related_columns_of (rels : List (String × Relationship)) : List (String × Column) :=
  (rels.map (fun p => p.2.targetCols.map (fun q => (p.1 ++ "." ++ q.1, q.2)))).flatten

/-- Model of `DotRelatedColumnsBag`: its own `RelationshipsBag` plus the
inherited `ColumnsBag` state initialized over the related-columns dict. -/
structure DotRelatedColumnsBag where
  rel_bag : RelationshipsBag
  cb : ColumnsBag
deriving DecidableEq

/-- Model of `DotRelatedColumnsBag.__init__`; `tagRel` and `tagCols` identify
the two dicts it creates. -/
def DotRelatedColumnsBag.init (tagRel tagCols : Nat)
    (rels : List (String × Relationship)) : DotRelatedColumnsBag where
  rel_bag := RelationshipsBag.init tagRel rels
  cb := ColumnsBag.init tagCols (related_columns_of rels)

/-- Model of `DotRelatedColumnsBag.aliased`: wrap `_columns`, alias `_rel_bag`. -/
def DotRelatedColumnsBag.aliased (b : DotRelatedColumnsBag) (al : PyAlias) : DotRelatedColumnsBag where
  rel_bag := RelationshipsBag.aliased b.rel_bag al
  cb := { b.cb with columns := .aliasedW al.id b.cb.columns }

/-- Model of `DotRelatedColumnsBag.is_column_array`: the name is tested as is,
with no dot-notation stripping. -/
def DotRelatedColumnsBag.is_column_array (b : DotRelatedColumnsBag) (nm : String) : Bool :=
  decide (nm ∈ b.cb.array_column_names)

/-- Model of `DotRelatedColumnsBag.is_column_json`: the name is tested as is,
with no dot-notation stripping. -/
def DotRelatedColumnsBag.is_column_json (b : DotRelatedColumnsBag) (nm : String) : Bool :=
  decide (nm ∈ b.cb.json_column_names)

/-- Model of the inherited `__getitem__` on a `DotRelatedColumnsBag`. -/
def DotRelatedColumnsBag.getItem (b : DotRelatedColumnsBag) (nm : String) : Except PyErr Handle :=
  b.cb.columns.getItem nm

/-- A member bag handed to `CombinedBag`: one of the concrete bag kinds.
`columns`, `dotColumns`, `hybrid` and `dotRelated` are `ColumnsBag`
instances in Python's `isinstance` sense; `props` and `rels` are not. -/
inductive AnyBag where
  | columns (b : ColumnsBag)
  | dotColumns (b : ColumnsBag)
  | hybrid (b : ColumnsBag)
  | props (b : PropertiesBag)
  | rels (b : RelationshipsBag)
  | dotRelated (b : DotRelatedColumnsBag)
deriving DecidableEq

/-- The `names` property of a member bag. -/
def AnyBag.names : AnyBag → Finset String
  | .columns b => b.column_names
  | .dotColumns b => b.column_names
  | .hybrid b => b.column_names
  | .props b => b.property_names
  | .rels b => b.rel_names
  | .dotRelated b => b.cb.column_names

/-- Dynamic dispatch of `bag[name]` over the member bag kinds, exactly as the
Python method resolution order performs it. -/
def AnyBag.getItem : AnyBag → String → Except PyErr Handle
  | .columns b, nm => b.columns.getItem nm
  | .dotColumns b, nm => DotColumnsBag.getItem b nm
  | .hybrid b, nm => b.columns.getItem nm
  | .props b, nm => PropertiesBag.getItem b nm
  | .rels b, nm => b.relations.getItem nm
  | .dotRelated b, nm => b.cb.columns.getItem nm

/-- The `_json_column_names` contribution of a member bag to a `CombinedBag`:
only `ColumnsBag` instances contribute. -/
def AnyBag.jsonColNames : AnyBag → Finset String
  | .columns b => b.json_column_names
  | .dotColumns b => b.json_column_names
  | .hybrid b => b.json_column_names
  | .dotRelated b => b.cb.json_column_names
  | .props _ => ∅
  | .rels _ => ∅

/-- Model of `CombinedBag`: the ordered `kwargs` dict of member bags plus the
combined frozensets computed at `__init__` time. -/
structure CombinedBag where
  bags : List (String × AnyBag)
  names : Finset String
  json_column_names : Finset String
deriving DecidableEq

/-- Model of `CombinedBag.__init__`. -/
def CombinedBag.init (bags : List (String × AnyBag)) : CombinedBag where
  bags := bags
  names := bags.foldr (fun p acc => p.2.names ∪ acc) ∅
  json_column_names := bags.foldr (fun p acc => p.2.jsonColNames ∪ acc) ∅

/-- The loop of `CombinedBag.__getitem__`: try member bags in order, catching
only `KeyError`; any other exception propagates. -/
def combinedGet (nm : String) : List (String × AnyBag) → Except PyErr (String × AnyBag × Handle)
  | [] => .error (.keyError nm)
  | p :: rest =>
    match AnyBag.getItem p.2 nm with
    | .ok h => .ok (p.1, p.2, h)
    | .error (.keyError _) => combinedGet nm rest
    | .error e => .error e

/-- Model of `CombinedBag.__getitem__`. -/
def CombinedBag.getItem (cb : CombinedBag) (nm : String) : Except PyErr (String × AnyBag × Handle) :=
  combinedGet nm cb.bags

/-- Model of `CombinedBag.__contains__`. -/
def CombinedBag.contains (cb : CombinedBag) (nm : String) : Bool :=
  decide (nm ∈ cb.names) || decide (get_plain_column_name nm ∈ cb.json_column_names)

/-- Model of Python tuple unpacking `a, b = s` of a string `s`: succeeds only
when the string has exactly two characters. -/
def strUnpack2 (s : String) : Except PyErr (Char × Char) :=
  match s.data with
  | [c1, c2] => .ok (c1, c2)
  | _ => .error .valueError

/-- Model of `CombinedBag.aliased`.  The source iterates `self._bags` (a dict,
hence its KEYS) with a two-variable unpacking target, so each role-name
string is unpacked into `(name, bag)`: a role name of length other than two
raises `ValueError`, and a two-character role name binds `bag` to a one-char
string whose `.aliased` access then raises `AttributeError`. -/
def CombinedBag.aliased (cb : CombinedBag) (_al : PyAlias) : Except PyErr CombinedBag :=
  (cb.bags.mapM (fun (p : String × AnyBag) =>
      match strUnpack2 p.1 with
      | .ok _ => (.error .attributeError : Except PyErr (String × AnyBag))
      | .error e => .error e)).map
    (fun newBags => { cb with bags := newBags })

/-- Introspection result for one model class: what the SqlAlchemy inspector
hands to `ModelPropertyBags.__init__` (columns, `@property` names, hybrid
properties, relationships, primary-key names). -/
structure ModelDescr where
  name : String
  columns : List (String × Column)
  props : List String
  hybrids : List (String × Column)
  rels : List (String × Relationship)
  pkNames : List String
deriving DecidableEq

/-- Model of `ModelPropertyBags`: one bag per attribute kind plus the two
derived bags. -/
structure ModelPropertyBags where
  model : String
  model_name : String
  columns : ColumnsBag
  properties : PropertiesBag
  hybrid_properties : ColumnsBag
  relations : RelationshipsBag
  related_columns : DotRelatedColumnsBag
  pk : ColumnsBag
  nullable : ColumnsBag
deriving DecidableEq

/-- Model of `ModelPropertyBags.__init__`: each `_init_*` helper creates its
own fresh dict, numbered from `t`. -/
def ModelPropertyBags.init (t : Nat) (m : ModelDescr) : ModelPropertyBags where
  model := m.name
  model_name := m.name
  columns := ColumnsBag.init t m.columns
  properties := PropertiesBag.init m.props
  hybrid_properties := ColumnsBag.init (t + 1) m.hybrids
  relations := RelationshipsBag.init (t + 2) m.rels
  related_columns := DotRelatedColumnsBag.init (t + 3) (t + 4) m.rels
  pk := ColumnsBag.init (t + 5)
    (m.pkNames.filterMap (fun nm => (alookup nm m.columns).map (fun c => (nm, c))))
  nullable := ColumnsBag.init (t + 6) (m.columns.filter (fun p => p.2.nullable))

/-- Model of `ModelPropertyBags.aliased`: a fresh registry object whose dict
is the base dict with `aliased()` applied to every bag value. -/
def ModelPropertyBags.aliased (b : ModelPropertyBags) (al : PyAlias) : ModelPropertyBags where
  model := b.model
  model_name := b.model_name
  columns := ColumnsBag.aliased b.columns al
  properties := b.properties
  hybrid_properties := HybridPropertiesBag.aliased b.hybrid_properties al
  relations := RelationshipsBag.aliased b.relations al
  related_columns := DotRelatedColumnsBag.aliased b.related_columns al
  pk := ColumnsBag.aliased b.pk al
  nullable := ColumnsBag.aliased b.nullable al

/-- Model of the `ModelPropertyBags.all_names` property. -/
def ModelPropertyBags.all_names (b : ModelPropertyBags) : Finset String :=
  b.columns.column_names ∪ b.properties.property_names ∪
    b.hybrid_properties.column_names ∪ b.relations.rel_names

/-- Identity tags of every mutable dict object owned (or referenced) by a
registry's bags. -/
def ModelPropertyBags.dictTags (b : ModelPropertyBags) : Finset Nat :=
  b.columns.columns.tags ∪ b.hybrid_properties.columns.tags ∪
    b.relations.relations.tags ∪ b.related_columns.rel_bag.relations.tags ∪
    b.related_columns.cb.columns.tags ∪ b.pk.columns.tags ∪ b.nullable.columns.tags

/-- State of the `ModelPropertyBags.__bags_per_model_cache` class attribute:
the cache maps model-class identities to registry-instance identities, and
`next` is the allocator for fresh instance identities. -/
structure ForModelState where
  cache : List (Nat × Nat)
  next : Nat
deriving DecidableEq

/-- The empty cache the process starts with. -/
def ForModelState.initial : ForModelState := ⟨[], 0⟩

/-- Model of `ModelPropertyBags.for_model`: return the cached instance, or
build a fresh one and remember it. -/
def for_model (s : ForModelState) (m : Nat) : Nat × ForModelState :=
  match alookup m s.cache with
  | some bags => (bags, s)
  | none => (s.next, ⟨s.cache ++ [(m, s.next)], s.next + 1⟩)

/-- Run a sequence of `for_model` calls, keeping only the final cache state. -/
def runCalls : ForModelState → List Nat → ForModelState
  | s, [] => s
  | s, m :: rest => runCalls (for_model s m).2 rest

/-- Projection compiler failures (the spec's error taxonomy). -/
inductive ProjErr where
  | unknownAttribute
  | ambiguousProjection
deriving DecidableEq

/-- Projection modes. -/
inductive ProjMode where
  | includeMode
  | excludeMode
  | mixedMode
deriving DecidableEq

/-- Modelled from the spec: the projection compiler (`MongoProjection.input`)
lives in `mongosql/statements.py`, which is not among the sources here (only
its tests are).  Per spec section 4.5 step 3, for a mapping input with no
configured defaults or forces: validate every key against the registry's
projectable name-set, then classify the value set — all `1` gives INCLUDE
mode, all `0` gives EXCLUDE mode, and a mix of both is accepted (as MIXED
mode) only when the mapping mentions every projectable name, failing with
`AmbiguousProjectionError` otherwise.  Directive values are modelled as
`Bool` (`true` for 1, `false` for 0). -/
def projection_apply_mapping (allNames : Finset String) (input : List (String × Bool)) :
    Except ProjErr (ProjMode × List (String × Bool)) :=
  if ¬ ((input.map Prod.fst).toFinset ⊆ allNames) then .error .unknownAttribute
  else if input.all (fun p => p.2) then .ok (.includeMode, input)
  else if input.all (fun p => !p.2) then .ok (.excludeMode, input)
  else if (input.map Prod.fst).toFinset = allNames then .ok (.mixedMode, input)
  else .error .ambiguousProjection

/-! Concrete instances used by witnesses and counterexamples. -/

/-- A two-column dict: a plain column `a` and a JSON column `j`. -/
def demoCols : List (String × Column) :=
  [("a", ⟨"a", false, false, true⟩), ("j", ⟨"j", false, true, true⟩)]

/-- The `Article` model of the repository's test suite: five columns (`data`
is the JSON one), one `@property`, one hybrid property, one to-many
relationship `comments`, primary key `id`. -/
def articleDescr : ModelDescr where
  name := "Article"
  columns := [("id", ⟨"id", false, false, false⟩), ("uid", ⟨"uid", false, false, false⟩),
              ("title", ⟨"title", false, false, true⟩), ("theme", ⟨"theme", false, false, true⟩),
              ("data", ⟨"data", false, true, true⟩)]
  props := ["calculated"]
  hybrids := [("hybrid", ⟨"hybrid", false, false, true⟩)]
  rels := [("comments", ⟨"comments", true,
             [("id", ⟨"id", false, false, false⟩), ("aid", ⟨"aid", false, false, false⟩)]⟩)]
  pkNames := ["id"]

/-- A combined bag over the demo columns, with the single role name `col`
(as the projection compiler does). -/
def demoCombined : CombinedBag :=
  CombinedBag.init [("col", .dotColumns (ColumnsBag.init 0 demoCols))]

/-- A query alias of the Article model: `getattr` on it resolves every
attribute name the model has. -/
def articleAlias : PyAlias :=
  ⟨1, (ModelPropertyBags.init 0 articleDescr).all_names⟩

/-! Basic lemmas about `splitDots`, `dotSplit` and `alookup`. -/

theorem ColumnsBag.init_columns (tag : Nat) (d : List (String × Column)) :
    (ColumnsBag.init tag d).columns = .plain tag d := rfl

theorem ColumnsBag.init_column_names (tag : Nat) (d : List (String × Column)) :
    (ColumnsBag.init tag d).column_names = (d.map Prod.fst).toFinset := rfl

theorem ColumnsBag.init_json_column_names (tag : Nat) (d : List (String × Column)) :
    (ColumnsBag.init tag d).json_column_names
      = ((d.filter (fun p => p.2.isJson)).map Prod.fst).toFinset := rfl

theorem splitDots_ne_nil (l : List Char) : splitDots l ≠ [] := by
  cases l with
  | nil => simp [splitDots]
  | cons c rest =>
    simp only [splitDots]
    split
    · simp
    · split
      · simp
      · simp

theorem not_dot_mem_splitDots (l : List Char) (seg : List Char) (h : seg ∈ splitDots l) :
    ('.' : Char) ∉ seg := by
  induction l generalizing seg with
  | nil =>
    simp only [splitDots, List.mem_singleton] at h
    subst h; simp
  | cons c rest ih =>
    simp only [splitDots] at h
    by_cases hc : c = '.'
    · rw [if_pos hc] at h
      rcases List.mem_cons.mp h with h1 | h2
      · subst h1; simp
      · exact ih seg h2
    · rw [if_neg hc] at h
      rcases hr : splitDots rest with _ | ⟨s, ss⟩
      · exact absurd hr (splitDots_ne_nil rest)
      · rw [hr] at h
        rcases List.mem_cons.mp h with h1 | h2
        · subst h1
          intro hmem
          rcases List.mem_cons.mp hmem with h3 | h4
          · exact hc h3.symm
          · exact ih s (by rw [hr]; exact List.mem_cons_self s ss) h4
        · exact ih seg (by rw [hr]; exact List.mem_cons.mpr (Or.inr h2))

theorem splitDots_no_dot (l : List Char) (h : ('.' : Char) ∉ l) : splitDots l = [l] := by
  induction l with
  | nil => simp [splitDots]
  | cons c rest ih =>
    have hc : c ≠ '.' := fun he => h (he ▸ List.mem_cons_self c rest)
    have hrest : ('.' : Char) ∉ rest := fun hm => h (List.mem_cons.mpr (Or.inr hm))
    simp only [splitDots]
    rw [ih hrest, if_neg hc]

theorem dotSplit_no_dot (s : String) (h : ('.' : Char) ∉ s.data) : dotSplit s = (s, []) := by
  cases s with
  | mk ld =>
    simp only [dotSplit, splitDots_no_dot ld h, List.map]

theorem dotSplit_fst_no_dot (nm : String) : ('.' : Char) ∉ (dotSplit nm).1.data := by
  rcases hsp : splitDots nm.data with _ | ⟨seg, rest⟩
  · exact absurd hsp (splitDots_ne_nil nm.data)
  · have hmem : seg ∈ splitDots nm.data := by
      rw [hsp]; exact List.mem_cons_self seg rest
    have hnd := not_dot_mem_splitDots nm.data seg hmem
    simpa [dotSplit, hsp] using hnd

theorem get_plain_no_dot (s : String) (h : ('.' : Char) ∉ s.data) :
    get_plain_column_name s = s := by
  unfold get_plain_column_name
  rw [dotSplit_no_dot s h]

theorem alookup_mem {κ α : Type} [DecidableEq κ] (k : κ) (l : List (κ × α)) (v : α)
    (h : alookup k l = some v) : (k, v) ∈ l := by
  induction l with
  | nil => simp [alookup] at h
  | cons p rest ih =>
    simp only [alookup] at h
    by_cases hk : p.1 = k
    · rw [if_pos hk] at h
      injection h with hv
      subst hv; subst hk
      exact List.mem_cons.mpr (Or.inl rfl)
    · rw [if_neg hk] at h
      exact List.mem_cons.mpr (Or.inr (ih h))

theorem alookup_append_left {κ α : Type} [DecidableEq κ] (k : κ) (l1 l2 : List (κ × α)) (v : α)
    (h : alookup k l1 = some v) : alookup k (l1 ++ l2) = some v := by
  induction l1 with
  | nil => simp [alookup] at h
  | cons p rest ih =>
    simp only [alookup] at h ⊢
    by_cases hk : p.1 = k
    · rwa [if_pos hk] at h ⊢
    · rw [if_neg hk] at h ⊢
      exact ih h

theorem alookup_append_none {κ α : Type} [DecidableEq κ] (k : κ) (l1 l2 : List (κ × α))
    (h : alookup k l1 = none) : alookup k (l1 ++ l2) = alookup k l2 := by
  induction l1 with
  | nil => simp [alookup]
  | cons p rest ih =>
    simp only [alookup] at h ⊢
    by_cases hk : p.1 = k
    · rw [if_pos hk] at h; exact absurd h (by simp)
    · rw [if_neg hk] at h ⊢
      exact ih h

theorem alookup_filter_keys (pr : Column → Bool) (d : List (String × Column))
    (hnd : (d.map Prod.fst).Nodup) (c : String) (col : Column)
    (hl : alookup c d = some col) :
    (c ∈ ((d.filter (fun p => pr p.2)).map Prod.fst).toFinset) ↔ pr col = true := by
  induction d with
  | nil => simp [alookup] at hl
  | cons p rest ih =>
    simp only [List.map_cons, List.nodup_cons] at hnd
    simp only [alookup] at hl
    by_cases hk : p.1 = c
    · rw [if_pos hk] at hl
      injection hl with hv
      subst hv
      constructor
      · intro hmem
        simp only [List.mem_toFinset, List.mem_map, List.mem_filter] at hmem
        rcases hmem with ⟨q, ⟨hq, hpr⟩, hfst⟩
        rcases List.mem_cons.mp hq with rfl | hq2
        · exact hpr
        · exact absurd (hk ▸ hfst ▸ (List.mem_map.mpr ⟨q, hq2, rfl⟩)) hnd.1
      · intro hpr
        have hstep : (p :: rest).filter (fun q => pr q.2) = p :: rest.filter (fun q => pr q.2) := by
          apply List.filter_cons_of_pos
          simpa using hpr
        rw [hstep]
        simp [hk]
    · rw [if_neg hk] at hl
      have hrec := ih hnd.2 hl
      by_cases hpp : pr p.2 = true
      · have hstep : (p :: rest).filter (fun q => pr q.2) = p :: rest.filter (fun q => pr q.2) := by
          apply List.filter_cons_of_pos
          simpa using hpp
        rw [hstep]
        simp only [List.map_cons, List.toFinset_cons, Finset.mem_insert]
        constructor
        · intro h
          rcases h with h | h
          · exact absurd h.symm hk
          · exact hrec.mp h
        · intro h
          exact Or.inr (hrec.mpr h)
      · have hstep : (p :: rest).filter (fun q => pr q.2) = rest.filter (fun q => pr q.2) := by
          apply List.filter_cons_of_neg
          simpa using hpp
        rw [hstep]
        exact hrec

/-! Claim C1: dotted lookups on `DotColumnsBag`. -/

/-- Claim C1, counterexample to the claim as stated: on a `DotColumnsBag`
holding the non-JSON column `a`, the dotted name `a.b` — a non-empty sub-path
over a non-structured column — still satisfies the membership test, because
`__contains__` splits the name and checks only the head; the claim requires
`contains` to be false there. -/
theorem C1_contains_counterexample :
    DotColumnsBag.contains (ColumnsBag.init 0 demoCols) "a.b" = .ok true ∧
    (⟨"a", false, false, true⟩ : Column).isJson = false ∧
    (dotSplit "a.b").2 ≠ [] := by
  decide

/-- Claim C1 (amended): for a dotted name splitting into head `c` and
non-empty sub-path `p`, over a `DotColumnsBag` with distinct column keys:
if `c` is a known JSON-typed column, `contains` is true and `get` returns the
nested accessor `col[p].astext`; if `c` is a known column that is NOT
JSON-typed, `contains` is still true (membership tests only the head) while
`get` raises `KeyError`; if `c` is unknown, `contains` is false and `get`
raises `KeyError`. -/
theorem C1_dotColumnsBag_dotted_lookup (tag : Nat) (d : List (String × Column))
    (nm c : String) (p : List String)
    (hnd : (d.map Prod.fst).Nodup)
    (hsplit : dotSplit nm = (c, p)) (hp : p ≠ []) :
    (∀ col : Column, alookup c d = some col →
      DotColumnsBag.contains (ColumnsBag.init tag d) nm = .ok true ∧
      (col.isJson = true →
        DotColumnsBag.getItem (ColumnsBag.init tag d) nm = .ok (.jsonPathOf (.col col) p)) ∧
      (col.isJson = false →
        DotColumnsBag.getItem (ColumnsBag.init tag d) nm = .error (.keyError nm))) ∧
    (alookup c d = none →
      DotColumnsBag.contains (ColumnsBag.init tag d) nm = .ok false ∧
      DotColumnsBag.getItem (ColumnsBag.init tag d) nm = .error (.keyError c)) := by
  have hcd : ('.' : Char) ∉ c.data := by
    have h := dotSplit_fst_no_dot nm
    rw [hsplit] at h
    exact h
  have hplain : get_plain_column_name c = c := get_plain_no_dot c hcd
  constructor
  · intro col hl
    have hjson : ((ColumnsBag.init tag d).is_column_json c = true) ↔ col.isJson = true := by
      unfold ColumnsBag.is_column_json
      rw [hplain, decide_eq_true_iff]
      exact alookup_filter_keys (fun x => x.isJson) d hnd c col hl
    refine ⟨?_, ?_, ?_⟩
    · unfold DotColumnsBag.contains
      rw [hsplit]
      simp [ColumnsBag.init_columns, ColsDict.hasKey, hl]
    · intro hj
      unfold DotColumnsBag.getItem
      rw [hsplit]
      simp [ColumnsBag.init_columns, ColsDict.getItem, hl, hp, hjson.mpr hj]
    · intro hj
      have hjf : (ColumnsBag.init tag d).is_column_json c = false := by
        refine Bool.eq_false_iff.mpr (fun hcon => ?_)
        have h := hjson.mp hcon
        rw [h] at hj
        simp at hj
      unfold DotColumnsBag.getItem
      rw [hsplit]
      simp [ColumnsBag.init_columns, ColsDict.getItem, hl, hp, hjf]
  · intro hl
    constructor
    · unfold DotColumnsBag.contains
      rw [hsplit]
      simp [ColumnsBag.init_columns, ColsDict.hasKey, hl]
    · unfold DotColumnsBag.getItem
      rw [hsplit]
      simp [ColumnsBag.init_columns, ColsDict.getItem, hl]

/-- Claim C1, witness: the amended theorem applied to the demo bag at the
JSON column `j` with sub-path `x`, and all hypotheses discharged there. -/
theorem C1_dotColumnsBag_dotted_lookup_witness :
    DotColumnsBag.contains (ColumnsBag.init 0 demoCols) "j.x" = .ok true ∧
    DotColumnsBag.getItem (ColumnsBag.init 0 demoCols) "j.x"
      = .ok (.jsonPathOf (.col ⟨"j", false, true, true⟩) ["x"]) := by
  have h := (C1_dotColumnsBag_dotted_lookup 0 demoCols "j.x" "j" ["x"]
    (by decide) (by decide) (by decide)).1 ⟨"j", false, true, true⟩ (by decide)
  exact ⟨h.1, h.2.1 rfl⟩

/-! Claim C5: `get_invalid_names` on `DotColumnsBag`. -/

/-- Claim C5: `DotColumnsBag.get_invalid_names` equals the requested names
minus the known column names, with every name whose head segment is a
JSON-typed column removed again; in particular a dotted name over a JSON head
is never reported invalid, while a requested name that is neither a known
column nor JSON-headed is always reported invalid. -/
theorem C5_dotColumns_get_invalid_names (b : ColumnsBag) (names : List String) :
    DotColumnsBag.get_invalid_names b names
      = (names.toFinset \ b.column_names).filter
          (fun nm => get_plain_column_name nm ∉ b.json_column_names) ∧
    (∀ nm, nm ∈ names → get_plain_column_name nm ∈ b.json_column_names →
      nm ∉ DotColumnsBag.get_invalid_names b names) ∧
    (∀ nm, nm ∈ names → nm ∉ b.column_names →
      get_plain_column_name nm ∉ b.json_column_names →
      nm ∈ DotColumnsBag.get_invalid_names b names) := by
  have hmain : DotColumnsBag.get_invalid_names b names
      = (names.toFinset \ b.column_names).filter
          (fun nm => get_plain_column_name nm ∉ b.json_column_names) := by
    unfold DotColumnsBag.get_invalid_names
    ext nm
    simp only [ColumnsBag.is_column_json, Finset.mem_sdiff, Finset.mem_filter,
      decide_eq_true_eq, List.mem_toFinset]
    tauto
  refine ⟨hmain, ?_, ?_⟩
  · intro nm _ hjson
    rw [hmain]
    simp [Finset.mem_filter, hjson]
  · intro nm hmem hnotcol hjson
    rw [hmain]
    simp [Finset.mem_filter, Finset.mem_sdiff, List.mem_toFinset, hmem, hnotcol, hjson]

/-- Claim C5, witness: on the demo bag, of the requested names `a`, `j.x`,
`a.b`, `zz`, exactly the unknown non-JSON-headed ones are invalid. -/
theorem C5_dotColumns_get_invalid_names_witness :
    DotColumnsBag.get_invalid_names (ColumnsBag.init 0 demoCols) ["a", "j.x", "a.b", "zz"]
      = {"a.b", "zz"} ∧
    "j.x" ∉ DotColumnsBag.get_invalid_names (ColumnsBag.init 0 demoCols) ["a", "j.x", "a.b", "zz"] ∧
    "a.b" ∈ DotColumnsBag.get_invalid_names (ColumnsBag.init 0 demoCols) ["a", "j.x", "a.b", "zz"] := by
  refine ⟨by decide, ?_, ?_⟩
  · exact (C5_dotColumns_get_invalid_names (ColumnsBag.init 0 demoCols)
      ["a", "j.x", "a.b", "zz"]).2.1 "j.x" (by decide) (by decide)
  · exact (C5_dotColumns_get_invalid_names (ColumnsBag.init 0 demoCols)
      ["a", "j.x", "a.b", "zz"]).2.2 "a.b" (by decide) (by decide) (by decide)

/-! Claim C2: the per-model registry cache. -/

/-- Well-formedness of the cache state: every cached instance identity is
below the allocator, and instance identities never repeat. -/
def ForModelState.WF (s : ForModelState) : Prop :=
  (∀ p ∈ s.cache, p.2 < s.next) ∧ (s.cache.map Prod.snd).Nodup

theorem wf_initial : ForModelState.initial.WF := by
  constructor <;> simp [ForModelState.initial]

theorem wf_for_model (s : ForModelState) (m : Nat) (h : s.WF) : (for_model s m).2.WF := by
  unfold for_model
  rcases hl : alookup m s.cache with _ | r
  · dsimp only
    refine ⟨?_, ?_⟩
    · intro p hp
      rcases List.mem_append.mp hp with h1 | h2
      · exact Nat.lt_succ_of_lt (h.1 p h1)
      · simp only [List.mem_singleton] at h2
        subst h2
        exact Nat.lt_succ_self _
    · rw [List.map_append]
      rw [List.nodup_append]
      refine ⟨h.2, by simp, ?_⟩
      intro a ha hb
      simp only [List.map_cons, List.map_nil, List.mem_singleton] at hb
      subst hb
      rcases List.mem_map.mp ha with ⟨p, hp, hfst⟩
      exact absurd (hfst ▸ h.1 p hp) (lt_irrefl _)
  · exact h

theorem for_model_lookup_self (s : ForModelState) (m : Nat) :
    alookup m (for_model s m).2.cache = some (for_model s m).1 := by
  unfold for_model
  rcases hl : alookup m s.cache with _ | r
  · dsimp only
    rw [alookup_append_none m s.cache _ hl]
    simp [alookup]
  · exact hl

theorem for_model_lookup_stable (s : ForModelState) (m m2 : Nat) (r : Nat)
    (h : alookup m s.cache = some r) :
    alookup m (for_model s m2).2.cache = some r := by
  unfold for_model
  rcases hl : alookup m2 s.cache with _ | r2
  · exact alookup_append_left m s.cache _ r h
  · exact h

theorem runCalls_lookup_stable (s : ForModelState) (ms : List Nat) (m : Nat) (r : Nat)
    (h : alookup m s.cache = some r) :
    alookup m (runCalls s ms).cache = some r := by
  induction ms generalizing s with
  | nil => exact h
  | cons m2 rest ih =>
    unfold runCalls
    exact ih _ (for_model_lookup_stable s m m2 r h)

theorem wf_runCalls (s : ForModelState) (ms : List Nat) (h : s.WF) : (runCalls s ms).WF := by
  induction ms generalizing s with
  | nil => exact h
  | cons m2 rest ih =>
    unfold runCalls
    exact ih _ (wf_for_model s m2 h)

theorem cache_ids_distinct (s : ForModelState) (h : s.WF) (m m2 r : Nat)
    (h1 : (m, r) ∈ s.cache) (h2 : (m2, r) ∈ s.cache) : m = m2 := by
  have hinj := List.inj_on_of_nodup_map h.2
  have := hinj h1 h2 rfl
  exact congrArg Prod.fst this

/-- Claim C2: with the registry cache modelled as a state machine, a call for
model `m`, followed by arbitrary further calls `ns` and a second call for
`m`, returns the identical cached instance and leaves the cache untouched
(nothing is evicted or re-created); and a call for a different model `m2`
never returns the instance cached for `m`. -/
theorem C2_for_model_cache (ms ns : List Nat) (m m2 : Nat) (hne : m ≠ m2) :
    (for_model (runCalls (for_model (runCalls ForModelState.initial ms) m).2 ns) m).1
      = (for_model (runCalls ForModelState.initial ms) m).1 ∧
    (for_model (runCalls (for_model (runCalls ForModelState.initial ms) m).2 ns) m).2
      = runCalls (for_model (runCalls ForModelState.initial ms) m).2 ns ∧
    (for_model (for_model (runCalls (for_model (runCalls ForModelState.initial ms) m).2 ns) m).2 m2).1
      ≠ (for_model (runCalls ForModelState.initial ms) m).1 := by
  set s0 := runCalls ForModelState.initial ms with hs0
  set r1 := (for_model s0 m).1 with hr1
  set s1 := (for_model s0 m).2 with hs1
  set s2 := runCalls s1 ns with hs2
  have hwf0 : s0.WF := wf_runCalls _ _ wf_initial
  have hwf1 : s1.WF := by rw [hs1]; exact wf_for_model _ _ hwf0
  have hwf2 : s2.WF := by rw [hs2]; exact wf_runCalls _ _ hwf1
  have hl1 : alookup m s1.cache = some r1 := by
    rw [hs1, hr1]; exact for_model_lookup_self s0 m
  have hl2 : alookup m s2.cache = some r1 := by
    rw [hs2]; exact runCalls_lookup_stable _ _ _ _ hl1
  have hcall2 : for_model s2 m = (r1, s2) := by
    unfold for_model; rw [hl2]
  refine ⟨by rw [hcall2], by rw [hcall2], ?_⟩
  rw [hcall2]
  have hmem : (m, r1) ∈ s2.cache := alookup_mem m _ r1 hl2
  unfold for_model
  rcases hl : alookup m2 s2.cache with _ | r2
  · dsimp only
    intro he
    have hlt := hwf2.1 (m, r1) hmem
    rw [he] at hlt
    exact lt_irrefl _ hlt
  · dsimp only
    intro he
    have hmem2 : (m2, r1) ∈ s2.cache := by
      rw [← he]; exact alookup_mem m2 _ _ hl
    exact hne (cache_ids_distinct s2 hwf2 m m2 r1 hmem hmem2)

/-- Claim C2, witness: the cache theorem applied at models 3 and 5 with
concrete interleaved call sequences. -/
theorem C2_for_model_cache_witness :
    (3 : Nat) ≠ 5 ∧
    (for_model (runCalls (for_model (runCalls ForModelState.initial [7]) 3).2 [9, 5]) 3).1
      = (for_model (runCalls ForModelState.initial [7]) 3).1 := by
  exact ⟨by decide, (C2_for_model_cache [7] [9, 5] 3 5 (by decide)).1⟩

/-! Claim C3: the lookup loop of `CombinedBag.__getitem__`. -/

/-- Success test for one member bag's lookup, used to state the combined
lookup's semantics. -/
def lookupSucceeds (b : AnyBag) (nm : String) : Bool :=
  match b.getItem nm with
  | .ok _ => true
  | .error _ => false

/-- Does a member bag's lookup stop the combined search: it either succeeds,
or fails with an exception other than `KeyError` — the only exception the
combined loop catches. -/
def lookupStops (b : AnyBag) (nm : String) : Bool :=
  match b.getItem nm with
  | .ok _ => true
  | .error (.keyError _) => false
  | .error _ => true

theorem list_find?_congr {α : Type} (p q : α → Bool) (l : List α)
    (h : ∀ a ∈ l, p a = q a) : l.find? p = l.find? q := by
  induction l with
  | nil => rfl
  | cons a rest ih =>
    have ha := h a (List.mem_cons_self a rest)
    have hrest : rest.find? p = rest.find? q :=
      ih (fun b hb => h b (List.mem_cons.mpr (Or.inr hb)))
    rw [List.find?_cons, List.find?_cons, ha, hrest]

theorem combinedGet_stops_spec (nm : String) (bags : List (String × AnyBag)) :
    combinedGet nm bags =
      match bags.find? (fun p => lookupStops p.2 nm) with
      | some p => (AnyBag.getItem p.2 nm).map (fun h => (p.1, p.2, h))
      | none => .error (.keyError nm) := by
  induction bags with
  | nil => rfl
  | cons p rest ih =>
    cases hi : AnyBag.getItem p.2 nm with
    | ok h0 =>
      have hs : lookupStops p.2 nm = true := by
        simp [lookupStops, hi]
      have hfind : List.find? (fun q : String × AnyBag => lookupStops q.2 nm) (p :: rest)
          = some p := by
        simp [List.find?_cons, hs]
      rw [hfind]
      simp [combinedGet, hi, Except.map]
    | error e =>
      rcases e with k | _ | _ | _
      · have hs : lookupStops p.2 nm = false := by
          simp [lookupStops, hi]
        have hfind : List.find? (fun q : String × AnyBag => lookupStops q.2 nm) (p :: rest)
            = List.find? (fun q : String × AnyBag => lookupStops q.2 nm) rest := by
          simp [List.find?_cons, hs]
        rw [hfind, ← ih]
        simp [combinedGet, hi]
      all_goals
        have hs : lookupStops p.2 nm = true := by
          simp [lookupStops, hi]
        have hfind : List.find? (fun q : String × AnyBag => lookupStops q.2 nm) (p :: rest)
            = some p := by
          simp [List.find?_cons, hs]
        rw [hfind]
        simp [combinedGet, hi, Except.map]

/-- The hybrid bag of the demo model, not yet aliased. -/
def demoHybridBase : ColumnsBag :=
  ColumnsBag.init 1 [("hyb", ⟨"hyb", false, false, true⟩)]

/-- A query alias over the demo model: `getattr` on it resolves the model's
attribute names (its hybrid property and its two columns) and nothing else —
in particular no dotted name. -/
def demoPyAlias : PyAlias := ⟨1, {"hyb", "a", "j"}⟩

/-- A combined bag whose first member is an alias-derived hybrid bag and
whose second member is the dotted columns bag — the layout a compiler built
over an aliased registry would produce. -/
def demoCombinedAliased : CombinedBag :=
  CombinedBag.init
    [("hyb", .hybrid (HybridPropertiesBag.aliased demoHybridBase demoPyAlias)),
     ("col", .dotColumns (ColumnsBag.init 0 demoCols))]

/-- Claim C3, counterexample to the claim as stated: in a combined bag whose
first member is an alias-derived hybrid bag, the name `j.x` CAN be looked up
by the second member (the dotted columns bag), yet the combined lookup
neither returns that member's triple nor fails with the unknown-attribute
error: the hybrid member raises `AttributeError` (`getattr` on the alias has
no attribute `j.x`), which the loop's `except KeyError` does not catch, so
it propagates before any later bag is tried. -/
theorem C3_first_wins_counterexample :
    lookupSucceeds (.dotColumns (ColumnsBag.init 0 demoCols)) "j.x" = true ∧
    ("col", AnyBag.dotColumns (ColumnsBag.init 0 demoCols)) ∈ demoCombinedAliased.bags ∧
    CombinedBag.getItem demoCombinedAliased "j.x" = .error .attributeError := by
  decide

/-- Claim C3 (amended): `CombinedBag.__getitem__` walks member bags in
construction order, catching only `KeyError`: the FIRST member whose lookup
either succeeds or raises a non-`KeyError` exception determines the result —
a success returns that member's `(role, bag, handle)` triple, while a
non-`KeyError` failure (such as the alias-derived hybrid bag's
`AttributeError`) propagates immediately, without trying later bags; if
every member fails with `KeyError`, the lookup fails with `KeyError`.  In
particular, whenever every member's failure is a `KeyError`, the first
member whose lookup succeeds wins and a total miss raises `KeyError`, as
originally claimed. -/
theorem C3_combinedBag_getItem_spec (cb : CombinedBag) (nm : String) :
    (CombinedBag.getItem cb nm =
      match cb.bags.find? (fun p => lookupStops p.2 nm) with
      | some p => (AnyBag.getItem p.2 nm).map (fun h => (p.1, p.2, h))
      | none => .error (.keyError nm)) ∧
    ((∀ p ∈ cb.bags, lookupStops p.2 nm = lookupSucceeds p.2 nm) →
      CombinedBag.getItem cb nm =
        match cb.bags.find? (fun p => lookupSucceeds p.2 nm) with
        | some p => (AnyBag.getItem p.2 nm).map (fun h => (p.1, p.2, h))
        | none => .error (.keyError nm)) := by
  refine ⟨combinedGet_stops_spec nm cb.bags, ?_⟩
  intro hkey
  have hfind : cb.bags.find? (fun p => lookupStops p.2 nm)
      = cb.bags.find? (fun p => lookupSucceeds p.2 nm) :=
    list_find?_congr _ _ cb.bags (fun a ha => hkey a ha)
  have hmain := combinedGet_stops_spec nm cb.bags
  rw [hfind] at hmain
  exact hmain

/-- Claim C3, witness: on the demo combined bag, whose only member is a
plain dotted columns bag (every failure a `KeyError`), the first-wins form
holds at the JSON path `j.x`, with the hypothesis discharged concretely. -/
theorem C3_combinedBag_getItem_spec_witness :
    CombinedBag.getItem demoCombined "j.x" =
      match demoCombined.bags.find? (fun p => lookupSucceeds p.2 "j.x") with
      | some p => (AnyBag.getItem p.2 "j.x").map (fun h => (p.1, p.2, h))
      | none => .error (.keyError "j.x") :=
  (C3_combinedBag_getItem_spec demoCombined "j.x").2 (by decide)

/-! Claim C4: `CombinedBag.aliased`. -/

theorem except_bind_error {ε α β : Type} (e : ε) (f : α → Except ε β) :
    (Except.error e : Except ε α) >>= f = Except.error e := rfl

/-- Claim C4 (code defect): on any `CombinedBag` with at least one member
bag, `aliased` raises instead of returning an aliased copy.  The source
iterates `self._bags` — a dict, hence its role-name KEYS — with a
two-variable unpacking target, so the first role name is tuple-unpacked: a
name of length other than two raises `ValueError`, and a two-character name
binds the bag variable to a one-character string whose missing `aliased`
attribute then raises `AttributeError`. -/
theorem C4_combinedBag_aliased_raises (cb : CombinedBag) (al : PyAlias) (k : String)
    (b : AnyBag) (rest : List (String × AnyBag)) (hbags : cb.bags = (k, b) :: rest) :
    CombinedBag.aliased cb al
      = .error (if k.data.length = 2 then PyErr.attributeError else PyErr.valueError) := by
  unfold CombinedBag.aliased
  rw [hbags]
  rcases hkd : k.data with _ | ⟨c1, t1⟩
  · simp [List.mapM.loop, strUnpack2, hkd, Except.map, except_bind_error]
  · rcases t1 with _ | ⟨c2, t2⟩
    · simp [List.mapM.loop, strUnpack2, hkd, Except.map, except_bind_error]
    · rcases t2 with _ | ⟨c3, t3⟩
      · simp [List.mapM.loop, strUnpack2, hkd, Except.map, except_bind_error]
      · simp [List.mapM.loop, strUnpack2, hkd, Except.map, except_bind_error]

/-- Claim C4, witness at the failing input: aliasing the demo combined bag
(role name `col`, three characters) raises `ValueError`. -/
theorem C4_combinedBag_aliased_raises_witness :
    CombinedBag.aliased demoCombined demoPyAlias = .error PyErr.valueError := by
  have h := C4_combinedBag_aliased_raises demoCombined demoPyAlias "col"
    (.dotColumns (ColumnsBag.init 0 demoCols)) [] rfl
  rw [h, if_neg (by decide)]

/-! Claim C6: alias derivation of a registry. -/

theorem string_data_append (s t : String) : (s ++ t).data = s.data ++ t.data := by
  cases s
  cases t
  rfl

/-- Claim C6, counterexample to "sharing no mutable state with the base":
the alias-derived registry's bags hold the base registry's column and
relationship dicts by reference (`DictOfAliasedColumns` stores the wrapped
dict object itself), so base and derived registry share mutable dict
objects. -/
theorem C6_aliased_shares_dicts :
    ((ModelPropertyBags.init 0 articleDescr).dictTags ∩
      ((ModelPropertyBags.init 0 articleDescr).aliased articleAlias).dictTags).Nonempty := by
  decide

/-- Claim C6 (amended): deriving an aliased registry yields a fresh registry
value, distinct from the base, and preserves every name-set and
classification flag of every bag (and, the model being purely functional,
derivation reads and never writes the base); the derived bags do however
hold the base's underlying dicts by reference. -/
theorem C6_aliased_fresh_preserves (t : Nat) (m : ModelDescr) (al : PyAlias) :
    ModelPropertyBags.aliased (ModelPropertyBags.init t m) al ≠ ModelPropertyBags.init t m ∧
    ((ModelPropertyBags.init t m).aliased al).all_names = (ModelPropertyBags.init t m).all_names ∧
    ((ModelPropertyBags.init t m).aliased al).columns.column_names
      = (ModelPropertyBags.init t m).columns.column_names ∧
    ((ModelPropertyBags.init t m).aliased al).columns.array_column_names
      = (ModelPropertyBags.init t m).columns.array_column_names ∧
    ((ModelPropertyBags.init t m).aliased al).columns.json_column_names
      = (ModelPropertyBags.init t m).columns.json_column_names ∧
    ((ModelPropertyBags.init t m).aliased al).properties
      = (ModelPropertyBags.init t m).properties ∧
    ((ModelPropertyBags.init t m).aliased al).hybrid_properties.column_names
      = (ModelPropertyBags.init t m).hybrid_properties.column_names ∧
    ((ModelPropertyBags.init t m).aliased al).hybrid_properties.json_column_names
      = (ModelPropertyBags.init t m).hybrid_properties.json_column_names ∧
    ((ModelPropertyBags.init t m).aliased al).relations.rel_names
      = (ModelPropertyBags.init t m).relations.rel_names ∧
    ((ModelPropertyBags.init t m).aliased al).relations.array_rel_names
      = (ModelPropertyBags.init t m).relations.array_rel_names ∧
    ((ModelPropertyBags.init t m).aliased al).related_columns.cb.column_names
      = (ModelPropertyBags.init t m).related_columns.cb.column_names ∧
    ((ModelPropertyBags.init t m).aliased al).related_columns.cb.array_column_names
      = (ModelPropertyBags.init t m).related_columns.cb.array_column_names ∧
    ((ModelPropertyBags.init t m).aliased al).related_columns.cb.json_column_names
      = (ModelPropertyBags.init t m).related_columns.cb.json_column_names ∧
    ((ModelPropertyBags.init t m).aliased al).related_columns.rel_bag.rel_names
      = (ModelPropertyBags.init t m).related_columns.rel_bag.rel_names ∧
    ((ModelPropertyBags.init t m).aliased al).pk.column_names
      = (ModelPropertyBags.init t m).pk.column_names ∧
    ((ModelPropertyBags.init t m).aliased al).nullable.column_names
      = (ModelPropertyBags.init t m).nullable.column_names := by
  refine ⟨?_, rfl, rfl, rfl, rfl, rfl, rfl, rfl, rfl, rfl, rfl, rfl, rfl, rfl, rfl, rfl⟩
  intro he
  have hc := congrArg (fun r => r.columns.columns) he
  simp [ModelPropertyBags.aliased, ModelPropertyBags.init, ColumnsBag.aliased,
    ColumnsBag.init] at hc

/-! Claim C7: the attribute-bag contract after alias derivation. -/

/-- Claim C7, counterexample: the hybrid-properties bag of the Article
registry preserves its (non-empty) name set under aliasing, but full
enumeration of the alias-derived bag raises `AttributeError` (the lazy
aliasing dict has no `items`), so it does not yield one pair per name. -/
theorem C7_aliased_hybrid_iteration_fails :
    ((ModelPropertyBags.init 0 articleDescr).aliased articleAlias).hybrid_properties.column_names
      ≠ ∅ ∧
    ColumnsBag.items
        (((ModelPropertyBags.init 0 articleDescr).aliased articleAlias).hybrid_properties)
      = .error .attributeError := by
  exact ⟨by decide, rfl⟩

/-- Claim C7 (amended): for the columns, simple-properties, relationships and
related-columns bags of a registry, the alias-derived bag keeps the base
name-set and enumerates exactly one alias-adapted `(name, handle)` pair per
underlying dict entry; the hybrid-properties bag keeps its name-set too, but
its enumeration raises `AttributeError`. -/
theorem C7_aliased_bags_contract (t : Nat) (al : PyAlias) (m : ModelDescr) :
    (((ModelPropertyBags.init t m).aliased al).columns.column_names
        = (ModelPropertyBags.init t m).columns.column_names ∧
      ColumnsBag.items ((ModelPropertyBags.init t m).aliased al).columns
        = .ok (m.columns.map (fun p => (p.1, Handle.adapted al.id (.col p.2))))) ∧
    (((ModelPropertyBags.init t m).aliased al).properties.property_names
        = (ModelPropertyBags.init t m).properties.property_names ∧
      PropertiesBag.items ((ModelPropertyBags.init t m).aliased al).properties
        = (m.props.toFinset.sort (· ≤ ·)).map (fun nm => (nm, Handle.pyNone))) ∧
    (((ModelPropertyBags.init t m).aliased al).relations.rel_names
        = (ModelPropertyBags.init t m).relations.rel_names ∧
      RelationshipsBag.items ((ModelPropertyBags.init t m).aliased al).relations
        = .ok (m.rels.map (fun p => (p.1, Handle.adapted al.id (.rel p.2))))) ∧
    (((ModelPropertyBags.init t m).aliased al).related_columns.cb.column_names
        = (ModelPropertyBags.init t m).related_columns.cb.column_names ∧
      ColumnsBag.items ((ModelPropertyBags.init t m).aliased al).related_columns.cb
        = .ok ((related_columns_of m.rels).map (fun p => (p.1, Handle.adapted al.id (.col p.2))))) ∧
    (((ModelPropertyBags.init t m).aliased al).hybrid_properties.column_names
        = (ModelPropertyBags.init t m).hybrid_properties.column_names ∧
      ColumnsBag.items ((ModelPropertyBags.init t m).aliased al).hybrid_properties
        = .error .attributeError) := by
  refine ⟨⟨rfl, ?_⟩, ⟨rfl, rfl⟩, ⟨rfl, ?_⟩, ⟨rfl, ?_⟩, ⟨rfl, rfl⟩⟩
  · simp [ModelPropertyBags.aliased, ModelPropertyBags.init, ColumnsBag.aliased,
      ColumnsBag.init, ColumnsBag.items, ColsDict.items, Except.map, List.map_map,
      Function.comp]
  · simp [ModelPropertyBags.aliased, ModelPropertyBags.init, RelationshipsBag.aliased,
      RelationshipsBag.init, RelationshipsBag.items, RelsDict.items, Except.map,
      List.map_map, Function.comp]
  · simp [ModelPropertyBags.aliased, ModelPropertyBags.init, DotRelatedColumnsBag.aliased,
      DotRelatedColumnsBag.init, ColumnsBag.init, ColumnsBag.items, ColsDict.items,
      Except.map, List.map_map, Function.comp]

/-! Claim C8: the related-columns bag. -/

theorem mem_related_columns_keys (rels : List (String × Relationship)) (nm : String) :
    nm ∈ ((related_columns_of rels).map Prod.fst).toFinset ↔
      ∃ rn r cn c, (rn, r) ∈ rels ∧ (cn, c) ∈ r.targetCols ∧ nm = rn ++ "." ++ cn := by
  simp only [List.mem_toFinset, List.mem_map, related_columns_of, List.mem_flatten]
  constructor
  · rintro ⟨p, ⟨l, ⟨q, hq, rfl⟩, hp⟩, rfl⟩
    rcases List.mem_map.mp hp with ⟨w, hw, rfl⟩
    exact ⟨q.1, q.2, w.1, w.2, hq, hw, rfl⟩
  · rintro ⟨rn, r, cn, c, hq, hw, rfl⟩
    exact ⟨(rn ++ "." ++ cn, c),
      ⟨r.targetCols.map (fun w => (rn ++ "." ++ w.1, w.2)), ⟨(rn, r), hq, rfl⟩,
        List.mem_map.mpr ⟨(cn, c), hw, rfl⟩⟩, rfl⟩

theorem mem_related_filter_keys (pr : Column → Bool) (rels : List (String × Relationship))
    (nm : String) :
    nm ∈ (((related_columns_of rels).filter (fun p => pr p.2)).map Prod.fst).toFinset ↔
      ∃ rn r cn c, (rn, r) ∈ rels ∧ (cn, c) ∈ r.targetCols ∧ pr c = true ∧
        nm = rn ++ "." ++ cn := by
  simp only [List.mem_toFinset, List.mem_map, List.mem_filter, related_columns_of,
    List.mem_flatten]
  constructor
  · rintro ⟨p, ⟨⟨l, ⟨q, hq, rfl⟩, hp⟩, hpr⟩, rfl⟩
    rcases List.mem_map.mp hp with ⟨w, hw, rfl⟩
    exact ⟨q.1, q.2, w.1, w.2, hq, hw, hpr, rfl⟩
  · rintro ⟨rn, r, cn, c, hq, hw, hpr, rfl⟩
    exact ⟨(rn ++ "." ++ cn, c),
      ⟨⟨r.targetCols.map (fun w => (rn ++ "." ++ w.1, w.2)), ⟨(rn, r), hq, rfl⟩,
        List.mem_map.mpr ⟨(cn, c), hw, rfl⟩⟩, hpr⟩, rfl⟩

/-- Claim C8: the related-columns bag's name-set is exactly the dotted
cross-product `relationship.column` over every relationship and every column
of its target model, and its array/JSON classification queries test the full
dotted name as a single key (so a flag is only ever true for an exact
related-column key, never for a further dot-extension). -/
theorem C8_relatedColumnsBag_names_flags (tr tc : Nat)
    (rels : List (String × Relationship)) :
    (∀ nm, nm ∈ (DotRelatedColumnsBag.init tr tc rels).cb.column_names ↔
      ∃ rn r cn c, (rn, r) ∈ rels ∧ (cn, c) ∈ r.targetCols ∧ nm = rn ++ "." ++ cn) ∧
    (∀ nm, DotRelatedColumnsBag.is_column_json (DotRelatedColumnsBag.init tr tc rels) nm = true ↔
      ∃ rn r cn c, (rn, r) ∈ rels ∧ (cn, c) ∈ r.targetCols ∧ c.isJson = true ∧
        nm = rn ++ "." ++ cn) ∧
    (∀ nm, DotRelatedColumnsBag.is_column_array (DotRelatedColumnsBag.init tr tc rels) nm = true ↔
      ∃ rn r cn c, (rn, r) ∈ rels ∧ (cn, c) ∈ r.targetCols ∧ c.isArray = true ∧
        nm = rn ++ "." ++ cn) ∧
    (∀ nm, DotRelatedColumnsBag.is_column_json (DotRelatedColumnsBag.init tr tc rels) nm = true →
      nm ∈ (DotRelatedColumnsBag.init tr tc rels).cb.column_names) ∧
    (∀ nm, DotRelatedColumnsBag.is_column_array (DotRelatedColumnsBag.init tr tc rels) nm = true →
      nm ∈ (DotRelatedColumnsBag.init tr tc rels).cb.column_names) := by
  have hnames : ∀ nm, nm ∈ (DotRelatedColumnsBag.init tr tc rels).cb.column_names ↔
      ∃ rn r cn c, (rn, r) ∈ rels ∧ (cn, c) ∈ r.targetCols ∧ nm = rn ++ "." ++ cn :=
    fun nm => mem_related_columns_keys rels nm
  have hjson : ∀ nm,
      DotRelatedColumnsBag.is_column_json (DotRelatedColumnsBag.init tr tc rels) nm = true ↔
      ∃ rn r cn c, (rn, r) ∈ rels ∧ (cn, c) ∈ r.targetCols ∧ c.isJson = true ∧
        nm = rn ++ "." ++ cn := by
    intro nm
    unfold DotRelatedColumnsBag.is_column_json
    rw [decide_eq_true_iff]
    exact mem_related_filter_keys (fun c => c.isJson) rels nm
  have harr : ∀ nm,
      DotRelatedColumnsBag.is_column_array (DotRelatedColumnsBag.init tr tc rels) nm = true ↔
      ∃ rn r cn c, (rn, r) ∈ rels ∧ (cn, c) ∈ r.targetCols ∧ c.isArray = true ∧
        nm = rn ++ "." ++ cn := by
    intro nm
    unfold DotRelatedColumnsBag.is_column_array
    rw [decide_eq_true_iff]
    exact mem_related_filter_keys (fun c => c.isArray) rels nm
  refine ⟨hnames, hjson, harr, ?_, ?_⟩
  · intro nm h
    rcases (hjson nm).mp h with ⟨rn, r, cn, c, h1, h2, _, h4⟩
    exact (hnames nm).mpr ⟨rn, r, cn, c, h1, h2, h4⟩
  · intro nm h
    rcases (harr nm).mp h with ⟨rn, r, cn, c, h1, h2, _, h4⟩
    exact (hnames nm).mpr ⟨rn, r, cn, c, h1, h2, h4⟩

/-! Claim C10: `all_names`. -/

/-- Claim C10: `all_names` is the union of exactly the four base name-sets
(columns, properties, hybrid properties, relationships); and whenever those
base names are dot-free (as Python attribute names are), no dotted
related-column name is ever a member of `all_names`. -/
theorem C10_all_names (t : Nat) (m : ModelDescr)
    (hdot : ∀ nm ∈ (ModelPropertyBags.init t m).all_names, ('.' : Char) ∉ nm.data) :
    (ModelPropertyBags.init t m).all_names
      = (m.columns.map Prod.fst).toFinset ∪ m.props.toFinset ∪
        (m.hybrids.map Prod.fst).toFinset ∪ (m.rels.map Prod.fst).toFinset ∧
    ∀ nm ∈ (ModelPropertyBags.init t m).related_columns.cb.column_names,
      nm ∉ (ModelPropertyBags.init t m).all_names := by
  refine ⟨rfl, ?_⟩
  intro nm hmem hall
  rcases (mem_related_columns_keys m.rels nm).mp hmem with ⟨rn, r, cn, c, _, _, rfl⟩
  have hdotmem : ('.' : Char) ∈ (rn ++ "." ++ cn).data := by
    rw [string_data_append, string_data_append]
    simp
  exact hdot _ hall hdotmem

/-- Claim C10, witness: the dot-free hypothesis holds for the Article model,
and its related-column name `comments.aid` is indeed outside `all_names`. -/
theorem C10_all_names_witness :
    (∀ nm ∈ (ModelPropertyBags.init 0 articleDescr).all_names, ('.' : Char) ∉ nm.data) ∧
    "comments.aid" ∉ (ModelPropertyBags.init 0 articleDescr).all_names := by
  have hdot : ∀ nm ∈ (ModelPropertyBags.init 0 articleDescr).all_names,
      ('.' : Char) ∉ nm.data := by decide
  refine ⟨hdot, ?_⟩
  exact (C10_all_names 0 articleDescr hdot).2 "comments.aid" (by decide)

/-! Claim C9: the projection compiler's mixed-mode rule (spec-modelled). -/

/-- Modelled from the spec: the registry's projectable name-set for the
projection compiler — columns, simple properties and computed (hybrid)
properties; relationships are not projection targets. -/
def projectable_names (b : ModelPropertyBags) : Finset String :=
  b.columns.column_names ∪ b.properties.property_names ∪ b.hybrid_properties.column_names

/-- Claim C9 (spec-modelled): when a mapping input contains both a 0 and a 1
directive and all its keys are valid, `apply` succeeds — with mode MIXED and
the mapping kept — exactly when the mapping's key set equals the full
projectable name-set; whenever any projectable name is omitted, it fails
with the ambiguous-projection error and produces no result. -/
theorem C9_projection_mixed_requires_full (allNames : Finset String)
    (input : List (String × Bool))
    (h0 : ∃ p ∈ input, p.2 = false) (h1 : ∃ p ∈ input, p.2 = true)
    (hvalid : (input.map Prod.fst).toFinset ⊆ allNames) :
    (projection_apply_mapping allNames input = .ok (.mixedMode, input) ↔
      (input.map Prod.fst).toFinset = allNames) ∧
    ((input.map Prod.fst).toFinset ≠ allNames →
      projection_apply_mapping allNames input = .error .ambiguousProjection) := by
  have hna1 : ¬ (input.all (fun p => p.2) = true) := by
    rcases h0 with ⟨p, hp, hfalse⟩
    intro hall
    have h := List.all_eq_true.mp hall p hp
    rw [hfalse] at h
    exact Bool.false_ne_true h
  have hna0 : ¬ (input.all (fun p => !p.2) = true) := by
    rcases h1 with ⟨p, hp, htrue⟩
    intro hall
    have h := List.all_eq_true.mp hall p hp
    rw [htrue] at h
    simp at h
  unfold projection_apply_mapping
  rw [if_neg (not_not_intro hvalid), if_neg hna1, if_neg hna0]
  refine ⟨⟨?_, ?_⟩, ?_⟩
  · intro hok
    by_contra hne
    rw [if_neg hne] at hok
    exact absurd hok (by simp)
  · intro heq
    rw [if_pos heq]
  · intro hne
    rw [if_neg hne]

/-- Claim C9, witness at the Article registry's seven projectable names: the
mixed mapping of the test suite that omits five names fails with the
ambiguous-projection error; the mixed mapping mentioning all seven succeeds
in MIXED mode. -/
theorem C9_projection_mixed_requires_full_witness :
    projection_apply_mapping (projectable_names (ModelPropertyBags.init 0 articleDescr))
        [("id", true), ("title", false)]
      = .error .ambiguousProjection ∧
    projection_apply_mapping (projectable_names (ModelPropertyBags.init 0 articleDescr))
        [("id", true), ("uid", true), ("title", true), ("theme", true), ("data", false),
         ("calculated", true), ("hybrid", true)]
      = .ok (.mixedMode,
          [("id", true), ("uid", true), ("title", true), ("theme", true), ("data", false),
           ("calculated", true), ("hybrid", true)]) := by
  constructor
  · exact (C9_projection_mixed_requires_full
      (projectable_names (ModelPropertyBags.init 0 articleDescr))
      [("id", true), ("title", false)]
      ⟨("title", false), by decide, rfl⟩ ⟨("id", true), by decide, rfl⟩
      (by decide)).2 (by decide)
  · exact (C9_projection_mixed_requires_full
      (projectable_names (ModelPropertyBags.init 0 articleDescr))
      [("id", true), ("uid", true), ("title", true), ("theme", true), ("data", false),
       ("calculated", true), ("hybrid", true)]
      ⟨("data", false), by decide, rfl⟩ ⟨("id", true), by decide, rfl⟩
      (by decide)).1.mpr (by decide)
